import Mathlib

/-!
Shallow embedding of the drama_processor orchestration core
(src/drama_processor: models.py, sorter.py, subtitle.py, merger.py,
state.py, orchestrator.py, error_handler.py) and proofs about it.

Machine conventions: Python floats are modelled as rationals (the code only
adds and compares them), Python dicts as functions to Option or as
association lists, the filesystem as a Boolean existence predicate, and
Python exceptions as explicit error values.
-/

namespace DramaProcessor

/-- Decidable equality for modelled Python outcomes (a result or a raised
exception). -/
instance {ε α : Type} [DecidableEq ε] [DecidableEq α] : DecidableEq (Except ε α) := by
  intro a b
  cases a <;> cases b
  case error.error x y =>
    exact if h : x = y then Decidable.isTrue (by rw [h]) else Decidable.isFalse (by simp [h])
  case error.ok x y => exact Decidable.isFalse (by simp)
  case ok.error x y => exact Decidable.isFalse (by simp)
  case ok.ok x y =>
    exact if h : x = y then Decidable.isTrue (by rw [h]) else Decidable.isFalse (by simp [h])

/-! ### models.py -/

/-- models.py ProcessingStatus. -/
inductive ProcessingStatus
  | pending
  | inProgress
  | completed
  | failed
  | skipped
deriving DecidableEq, Repr

/-- models.py SubtitleFormat. -/
inductive SubtitleFormat
  | srt
  | ass
deriving DecidableEq, Repr

/-- models.py SubtitleEntry: one timed caption with index, start/end in
seconds, text, and an optional ASS style. -/
structure SubtitleEntry where
  index : Nat
  start_time : ℚ
  end_time : ℚ
  text : String
  style : Option String := none
deriving DecidableEq, Repr

/-- models.py SubtitleEntry.shift_time: a fresh entry with both timestamps
offset by the given number of seconds. -/
def SubtitleEntry.shift_time (e : SubtitleEntry) (offset_seconds : ℚ) : SubtitleEntry :=
  { index := e.index
    start_time := e.start_time + offset_seconds
    end_time := e.end_time + offset_seconds
    text := e.text
    style := e.style }

/-- models.py ProcessingResult: the outcome of one stage run on one unit.
Wall-clock durations are irrelevant to the claims and recorded as supplied. -/
structure ProcessingResult where
  status : ProcessingStatus
  input_path : String
  output_path : Option String
  error_message : Option String := none
  duration_seconds : ℚ := 0
deriving DecidableEq, Repr

/-! ### state.py -/

/-- state.py ProcessingState: one persisted record of the state store. -/
structure ProcessingState where
  drama_dir : String
  operation : String
  status : ProcessingStatus
  timestamp : String
  output_files : List String
  error_message : Option String := none
deriving DecidableEq, Repr

/-- The in-memory `states` dict of StateManager, keyed by strings. -/
abbrev StateMap := String → Option ProcessingState

/-- state.py StateManager.get_state_key: the composite key
`drama_dir.name ++ ":" ++ operation` (units are identified here by name). -/
def get_state_key (drama_dir operation : String) : String :=
  drama_dir ++ ":" ++ operation

/-- state.py StateManager.is_completed: true iff a record exists for the
key, its status is COMPLETED, and every recorded output file exists on the
filesystem `fs`. -/
def is_completed (states : StateMap) (fs : String → Bool) (drama_dir operation : String) : Bool :=
  match states (get_state_key drama_dir operation) with
  | none => false
  | some state =>
    if state.status ≠ ProcessingStatus.completed then false
    else state.output_files.all (fun f => fs f)

/-- state.py StateManager.mark_completed: overwrite the record for the key
with a COMPLETED record holding the given output files. -/
def mark_completed (states : StateMap) (drama_dir operation : String)
    (output_files : List String) (now : String) : StateMap :=
  fun k =>
    if k = get_state_key drama_dir operation then
      some { drama_dir := drama_dir
             operation := operation
             status := ProcessingStatus.completed
             timestamp := now
             output_files := output_files
             error_message := none }
    else states k

/-- state.py StateManager.mark_failed: overwrite the record for the key with
a FAILED record carrying the error message and no output files. -/
def mark_failed (states : StateMap) (drama_dir operation : String)
    (error_message : String) (now : String) : StateMap :=
  fun k =>
    if k = get_state_key drama_dir operation then
      some { drama_dir := drama_dir
             operation := operation
             status := ProcessingStatus.failed
             timestamp := now
             output_files := []
             error_message := some error_message }
    else states k

/-- state.py StateManager.get_pending_tasks: the units of the list that are
not completed, in input order. -/
def get_pending_tasks (states : StateMap) (fs : String → Bool)
    (drama_dirs : List String) (operation : String) : List String :=
  drama_dirs.filter (fun d => ! is_completed states fs d operation)

/-- orchestrator.py ResumableOrchestrator.process_batch, state-update step
(lines 460-474): a completed result is recorded with `[output_path]` when it
has one and with the empty list otherwise; a failed result is recorded as
failed with its message (or a default). -/
def record_result (states : StateMap) (operation : String) (r : ProcessingResult)
    (now : String) : StateMap :=
  if r.status = ProcessingStatus.completed then
    mark_completed states r.input_path operation
      (match r.output_path with
       | some p => [p]
       | none => []) now
  else if r.status = ProcessingStatus.failed then
    mark_failed states r.input_path operation
      (r.error_message.getD "unknown error") now
  else states

/-! ### sorter.py -/

/-- Value of a run of decimal digit characters (Python int of the run). -/
def charsToNat (run : List Char) : Nat :=
  run.foldl (fun a c => a * 10 + (c.toNat - 48)) 0

/-- Index of the last '.' of the character list, if any. -/
def last_dot_index (cs : List Char) : Option Nat :=
  ((List.range cs.length).filter (fun i => cs.getD i ' ' = '.')).getLast?

/-- Python pathlib stem of a file name: the name without its last suffix;
the suffix is the part from the last '.' when that dot is neither the first
nor the last character. -/
def pyStem (s : String) : String :=
  let cs := s.toList
  match last_dot_index cs with
  | some i => if 0 < i ∧ i < cs.length - 1 then String.mk (cs.take i) else s
  | none => s

/-- Splitting a character list into the maximal runs matched by the regex
alternation of digit runs and non-digit runs; each run is tagged with
whether it is a digit run. Structural recursion on an explicit fuel equal
to the list length. -/
def split_runs_go : Nat → List Char → List (Bool × List Char)
  | _, [] => []
  | 0, _ :: _ => []
  | fuel + 1, c :: cs =>
    let d := c.isDigit
    (d, c :: cs.takeWhile (fun x => x.isDigit = d))
      :: split_runs_go fuel (cs.dropWhile (fun x => x.isDigit = d))

/-- The maximal digit / non-digit runs of a character list, in order. -/
def splitRuns (cs : List Char) : List (Bool × List Char) :=
  split_runs_go cs.length cs

/-- sorter.py FileSorter.extract_number: all digit runs of the name without
its extension, as integers, or the single-element list [0] when the stem
holds no digits. -/
def extract_number (filename : String) : List Nat :=
  let stem := if filename.toList.contains '.' then pyStem filename else filename
  let nums := (splitRuns stem.toList).filterMap
    (fun r => if r.1 then some (charsToNat r.2) else none)
  if nums = [] then [0] else nums

/-- The primary sequence number of a file: the first extracted number
(extract_number never returns an empty list). -/
def first_number (filename : String) : Nat :=
  (extract_number filename).headD 0

/-- One element of a natural-sort key: an integer for a digit run, a
lower-cased string for a non-digit run. -/
inductive KeyPart
  | num (n : Nat)
  | txt (s : String)
deriving DecidableEq, Repr

/-- Conversion of one run: a digit run becomes its integer value, another
run becomes its lower-cased text. -/
def run_to_part (r : Bool × List Char) : KeyPart :=
  if r.1 then KeyPart.num (charsToNat r.2)
  else KeyPart.txt (String.mk (r.2.map Char.toLower))

/-- sorter.py FileSorter.natural_sort_key: the stem split into alternating
text and number parts, text lower-cased; a single empty text part for an
empty stem. -/
def natural_sort_key (filename : String) : List KeyPart :=
  let parts := (splitRuns (pyStem filename).toList).map run_to_part
  if parts = [] then [KeyPart.txt ""] else parts

/-- Python equality on key parts: values of different types are unequal. -/
def keyPartEq : KeyPart → KeyPart → Bool
  | KeyPart.num a, KeyPart.num b => a = b
  | KeyPart.txt a, KeyPart.txt b => a = b
  | _, _ => false

/-- Python `<` on two unequal key parts: numeric on two ints, lexicographic
on two strings, a TypeError (modelled as an error value) on an int against
a string. -/
def keyPartLt : KeyPart → KeyPart → Except Unit Ordering
  | KeyPart.num a, KeyPart.num b => Except.ok (if a < b then Ordering.lt else Ordering.gt)
  | KeyPart.txt a, KeyPart.txt b => Except.ok (if a < b then Ordering.lt else Ordering.gt)
  | _, _ => Except.error ()

/-- Python tuple comparison of two natural-sort keys: scan for the first
position whose elements are unequal and compare there; a shorter tuple that
is a prefix of the other compares smaller; comparing an int with a string
raises a TypeError. -/
def pyCompare : List KeyPart → List KeyPart → Except Unit Ordering
  | [], [] => Except.ok Ordering.eq
  | [], _ :: _ => Except.ok Ordering.lt
  | _ :: _, [] => Except.ok Ordering.gt
  | x :: xs, y :: ys => if keyPartEq x y then pyCompare xs ys else keyPartLt x y

/-- The three failure messages of sorter.py FileSorter.validate_sequence,
with the reported (sorted) number lists. -/
inductive SeqError
  | emptyList
  | duplicates (ns : List Nat)
  | missing (ns : List Nat)
deriving DecidableEq, Repr

/-- The duplicate-collection loop of validate_sequence: `seen` is the set
of numbers already visited, `dups` the duplicated numbers in first-repeat
order. -/
def collect_dups_go : List Nat → List Nat → List Nat → List Nat
  | [], _, dups => dups
  | n :: rest, seen, dups =>
    if n ∈ seen then
      if n ∈ dups then collect_dups_go rest seen dups
      else collect_dups_go rest seen (dups ++ [n])
    else collect_dups_go rest (seen ++ [n]) dups

/-- The duplicated primary numbers of a number list, in first-repeat order. -/
def collect_duplicates (numbers : List Nat) : List Nat :=
  collect_dups_go numbers [] []

/-- The primary sequence numbers of the files, in order (`numbers` in
validate_sequence). -/
def primary_numbers (files : List String) : List Nat :=
  files.map first_number

/-- Python sorted() of the numbers (`sorted_numbers` in validate_sequence). -/
def sorted_numbers (numbers : List Nat) : List Nat :=
  numbers.insertionSort (· ≤ ·)

/-- The contiguous run the code expects: range(start, start + len) with
start the smallest (first sorted) number (`expected` in validate_sequence). -/
def expected_run (numbers : List Nat) : List Nat :=
  List.range' ((sorted_numbers numbers).headD 0) (sorted_numbers numbers).length

/-- set(expected) - set(sorted_numbers), as the sorted-distinct expected run
filtered to the values not present (`missing` in validate_sequence). -/
def missing_numbers (numbers : List Nat) : List Nat :=
  (expected_run numbers).filter (fun n => ¬ n ∈ sorted_numbers numbers)

/-- The number-level checks of sorter.py FileSorter.validate_sequence, in
the code's order: duplicates first, then contiguity. -/
def validate_numbers (numbers : List Nat) : Bool × Option SeqError :=
  if collect_duplicates numbers ≠ [] then
    (false, some (SeqError.duplicates ((collect_duplicates numbers).insertionSort (· ≤ ·))))
  else if sorted_numbers numbers ≠ expected_run numbers then
    if missing_numbers numbers ≠ [] then
      (false, some (SeqError.missing ((missing_numbers numbers).insertionSort (· ≤ ·))))
    else (true, none)
  else (true, none)

/-- sorter.py FileSorter.validate_sequence on the file names: empty list is
an explicit failure; a repeated primary number reports the sorted
duplicates; a sorted number list differing from the contiguous run starting
at its minimum reports the sorted missing numbers; otherwise valid. -/
def validate_sequence (files : List String) : Bool × Option SeqError :=
  if files = [] then (false, some SeqError.emptyList)
  else validate_numbers (primary_numbers files)

/-! ### merger.py merge_subtitles -/

/-- The two validation failures merge_subtitles can raise before doing any
work: an empty segment list, or two declared formats that differ. -/
inductive MergeError
  | emptySegments
  | formatMismatch (first_format seg_format : SubtitleFormat)
deriving DecidableEq, Repr

/-- Side effects of merge_subtitles, in the order the code performs them:
creating the output directory, the single-file copy, one timestamp shift of
a whole segment file, and saving the merged file. -/
inductive MergeEvent
  | mkdirOut
  | copyFile
  | shiftBy (offset : ℚ)
  | saveOut
deriving DecidableEq, Repr

/-- A parsed subtitle segment: its declared format and its parsed entries. -/
abbrev ParsedSegment := SubtitleFormat × List SubtitleEntry

/-- Renumbering of merger.py: each appended entry receives the current
global index and the index advances by one. -/
def renumber : List SubtitleEntry → Nat → List SubtitleEntry
  | [], _ => []
  | e :: rest, global_index =>
    { e with index := global_index } :: renumber rest (global_index + 1)

/-- The merge loop of merge_subtitles: for each segment in order, shift its
entries by the cumulative offset when that offset is positive, renumber
them from the running global index, then add the next video duration (when
one is left) to the cumulative offset. Returns the merged entries and the
shift events. -/
def merge_loop : List ParsedSegment → List ℚ → ℚ → Nat → List SubtitleEntry × List MergeEvent
  | [], _, _, _ => ([], [])
  | seg :: rest, durations, cumulative_offset, global_index =>
    let shifted :=
      if 0 < cumulative_offset then
        (seg.2.map (fun e => e.shift_time cumulative_offset), [MergeEvent.shiftBy cumulative_offset])
      else (seg.2, [])
    let next_offset :=
      match durations with
      | [] => cumulative_offset
      | d :: _ => cumulative_offset + d
    let tail := merge_loop rest durations.tail next_offset (global_index + seg.2.length)
    (renumber shifted.1 global_index ++ tail.1, shifted.2 ++ tail.2)

/-- merger.py VideoMerger.merge_subtitles on parsed segments and the
corresponding video durations: reject an empty list, then reject any
declared format differing from the first file's, then create the output
directory; a single file is copied through unchanged; otherwise run the
merge loop and save. Returns the resulting entries (or the raised error)
together with the performed side effects. -/
def merge_subtitles (segments : List ParsedSegment) (video_durations : List ℚ) :
    Except MergeError (List SubtitleEntry) × List MergeEvent :=
  match segments with
  | [] => (Except.error MergeError.emptySegments, [])
  | first :: rest =>
    match rest.find? (fun seg => seg.1 ≠ first.1) with
    | some seg => (Except.error (MergeError.formatMismatch first.1 seg.1), [])
    | none =>
      if rest = [] then (Except.ok first.2, [MergeEvent.mkdirOut, MergeEvent.copyFile])
      else
        let merged := merge_loop (first :: rest) video_durations 0 1
        (Except.ok merged.1, MergeEvent.mkdirOut :: merged.2 ++ [MergeEvent.saveOut])

/-- Sum of the durations of the segments preceding position i. -/
def sum_take (durations : List ℚ) (i : Nat) : ℚ :=
  (durations.take i).sum

/-- The per-file shifts as the specification describes them: the entries of
the file at position i are shifted by the sum of the durations of all
preceding segments (sum_take durations i), and the files are concatenated
in order. -/
def spec_shifted : List ParsedSegment → List ℚ → Nat → List SubtitleEntry
  | [], _, _ => []
  | seg :: rest, durations, i =>
    seg.2.map (fun e => e.shift_time (sum_take durations i))
      ++ spec_shifted rest durations (i + 1)

/-- The merged timeline as the specification describes it: every file
shifted by the cumulative duration of its predecessors, concatenated, and
renumbered globally from 1. -/
def spec_merged_entries (segments : List ParsedSegment) (durations : List ℚ) :
    List SubtitleEntry :=
  renumber (spec_shifted segments durations 0) 1

/-- The entries produced in loop coordinates: each remaining file is
shifted by the running cumulative offset, which then advances by the next
remaining duration. -/
def loop_shifted : List ParsedSegment → List ℚ → ℚ → List SubtitleEntry
  | [], _, _ => []
  | seg :: rest, durations, off =>
    seg.2.map (fun e => e.shift_time off)
      ++ loop_shifted rest durations.tail
          (match durations with
           | [] => off
           | d :: _ => off + d)

/-! ### error_handler.py and orchestrator.py -/

/-- The exception classes relevant to the error-handling design. -/
inductive PyErr
  | ioError
  | osError
  | timeoutError
  | validationError
  | ffmpegError
  | unexpected
deriving DecidableEq, Repr

/-- error_handler.py RetryStrategy.can_recover: I/O, OS and timeout errors
are the retryable classes. -/
def retryable (e : PyErr) : Bool :=
  match e with
  | PyErr.ioError => true
  | PyErr.osError => true
  | PyErr.timeoutError => true
  | _ => false

/-- One recovery policy of error_handler.py: a recoverability test and a
recovery action (given the error and the current retry count). -/
structure RecoveryStrategy where
  canRecover : PyErr → Bool
  recoverStep : PyErr → Nat → Bool

/-- error_handler.py ErrorHandler.handle: offer the error to each strategy
in order; the first that claims recoverability and recovers successfully
stops the chain; otherwise the failure stands. -/
def handle_error : List RecoveryStrategy → PyErr → Nat → Bool
  | [], _, _ => false
  | s :: rest, e, ctx =>
    if s.canRecover e then
      if s.recoverStep e ctx then true else handle_error rest e ctx
    else handle_error rest e ctx

/-- The recursion of error_handler.py RetryStrategy.recover, expressed
structurally on the remaining retry budget `max_retries - retry_count`:
with no budget left report non-recovery, otherwise run the operation
(attempt number `attempt`), succeed if it does, and retry with one more
recorded attempt if it raises. -/
def retry_go : Nat → (Nat → Bool) → Nat → Bool
  | 0, _, _ => false
  | budget + 1, op, attempt => if op attempt then true else retry_go budget op (attempt + 1)

/-- error_handler.py RetryStrategy.recover: driven by the context's
retry_count against max_retries; `op n` tells whether the n-th invocation
of the wrapped operation succeeds. -/
def retry_recover (max_retries retry_count : Nat) (op : Nat → Bool) (attempt : Nat) : Bool :=
  retry_go (max_retries - retry_count) op attempt

/-- The str() text of a modelled exception. -/
def err_text (e : PyErr) : String :=
  match e with
  | PyErr.ioError => "IOError"
  | PyErr.osError => "OSError"
  | PyErr.timeoutError => "TimeoutError"
  | PyErr.validationError => "ValidationError"
  | PyErr.ffmpegError => "FFmpegError"
  | PyErr.unexpected => "Exception"

/-- The FAILED ProcessingResult the orchestrator builds in its except
branch: failed status, the unit path, no output, the exception text. -/
def failed_result (drama_dir : String) (e : PyErr) : ProcessingResult :=
  { status := ProcessingStatus.failed
    input_path := drama_dir
    output_path := none
    error_message := some (err_text e)
    duration_seconds := 0 }

/-- orchestrator.py Orchestrator.merge: run the stage body once (validation
plus the stage handler, whose successive-invocation outcomes are given by
`handler`; the method performs exactly one invocation, number 0) and catch
any exception into a failed result. The registered `error_handler` chain is
a field of the orchestrator but the method body never consults it. -/
def orch_merge (error_handler : List RecoveryStrategy)
    (handler : Nat → Except PyErr ProcessingResult) (drama_dir : String) : ProcessingResult :=
  match handler 0 with
  | Except.ok r => r
  | Except.error e => failed_result drama_dir e

/-- A stage handler that raises a retryable I/O error on its first two
invocations and returns a completed result on the third. -/
def third_try_handler : Nat → Except PyErr ProcessingResult := fun n =>
  if n < 2 then Except.error PyErr.ioError
  else Except.ok
    { status := ProcessingStatus.completed
      input_path := "drama-0001"
      output_path := some "merged"
      error_message := none
      duration_seconds := 0 }

/-- One unit of a sequential batch: the per-unit outcome (the stage method
body) with every exception caught at the unit boundary into a failed
result, as in Orchestrator.merge / separate / transcode. -/
def unit_merge (outcome : String → Except PyErr ProcessingResult) (drama_dir : String) :
    ProcessingResult :=
  match outcome drama_dir with
  | Except.ok r => r
  | Except.error e => failed_result drama_dir e

/-- The accumulation loop of Orchestrator.process_batch: process each
directory in order and append its result. -/
def process_batch_go (outcome : String → Except PyErr ProcessingResult) :
    List String → List ProcessingResult → List ProcessingResult
  | [], results => results
  | d :: rest, results => process_batch_go outcome rest (results ++ [unit_merge outcome d])

/-- orchestrator.py Orchestrator.process_batch (sequential): one result per
input directory, in input order. -/
def process_batch (outcome : String → Except PyErr ProcessingResult)
    (drama_dirs : List String) : List ProcessingResult :=
  process_batch_go outcome drama_dirs []

/-! ### orchestrator.py ConcurrentOrchestrator -/

/-- The value placed in slot i of the results list: the i-th worker's
returned result when its future resolves, or a failed result holding the
i-th input directory when the future raised. -/
def task_slot (outcome : Nat → Except PyErr ProcessingResult)
    (drama_dirs : List String) (i : Nat) : ProcessingResult :=
  match outcome i with
  | Except.ok r => r
  | Except.error e => failed_result (drama_dirs.getD i "") e

/-- orchestrator.py ConcurrentOrchestrator.process_batch: a results list is
preallocated with one None per input; futures are consumed in an arbitrary
completion order and each writes its own original index's slot. -/
def concurrent_process_batch (outcome : Nat → Except PyErr ProcessingResult)
    (drama_dirs : List String) (completion_order : List Nat) :
    List (Option ProcessingResult) :=
  completion_order.foldl
    (fun results i => results.set i (some (task_slot outcome drama_dirs i)))
    (List.replicate drama_dirs.length none)

/-! ### state.py load_state -/

/-- A parsed JSON value (what json.load returns on success). -/
inductive Json
  | null
  | bool (b : Bool)
  | num (q : ℚ)
  | str (s : String)
  | arr (elems : List Json)
  | obj (fields : List (String × Json))

/-- The exception classes that escape load_state uncaught (its except
clause catches only JSONDecodeError, KeyError and ValueError). -/
inductive UncaughtExc
  | attributeError
  | typeError
deriving DecidableEq, Repr

/-- A ProcessingState as load_state actually builds it: the dataclass does
not validate its fields, so every field except the parsed status keeps the
raw JSON value found in the file. -/
structure LoadedState where
  drama_dir : Json
  operation : Json
  status : ProcessingStatus
  timestamp : Json
  output_files : Json
  error_message : Option Json

/-- Python ProcessingStatus(value): the five valid status strings, or a
ValueError (None) for every other value. -/
def status_of_json : Json → Option ProcessingStatus
  | Json.str "pending" => some ProcessingStatus.pending
  | Json.str "in_progress" => some ProcessingStatus.inProgress
  | Json.str "completed" => some ProcessingStatus.completed
  | Json.str "failed" => some ProcessingStatus.failed
  | Json.str "skipped" => some ProcessingStatus.skipped
  | _ => none

/-- Reading one record dict: None models a caught exception (a KeyError
from a missing required key, or the ValueError from an invalid status). -/
def read_record (d : List (String × Json)) : Option LoadedState :=
  match d.lookup "drama_dir", d.lookup "operation", d.lookup "status",
        d.lookup "timestamp", d.lookup "output_files" with
  | some dd, some op, some st, some ts, some outf =>
    match status_of_json st with
    | some status => some ⟨dd, op, status, ts, outf, d.lookup "error_message"⟩
    | none => none
  | _, _, _, _, _ => none

/-- The record loop of load_state: a record value that is not an object
raises an uncaught TypeError when subscripted; a caught KeyError or
ValueError abandons the loop and restarts the store empty. -/
def load_fields : List (String × Json) → List (String × LoadedState) →
    Except UncaughtExc (List (String × LoadedState))
  | [], acc => Except.ok acc
  | (key, v) :: rest, acc =>
    match v with
    | Json.obj d =>
      match read_record d with
      | some st => load_fields rest (acc ++ [(key, st)])
      | none => Except.ok []
    | _ => Except.error UncaughtExc.typeError

/-- state.py StateManager.load_state on the file's parsed content: a JSON
decode failure (the error case of the input) is caught and yields the empty
store; data.items() on a top-level value that is not an object raises an
uncaught AttributeError; otherwise the records are read in order. -/
def load_state (content : Except Unit Json) :
    Except UncaughtExc (List (String × LoadedState)) :=
  match content with
  | Except.error _ => Except.ok []
  | Except.ok j =>
    match j with
    | Json.obj fields => load_fields fields []
    | _ => Except.error UncaughtExc.attributeError

/-! ### natural sort order proofs -/

/-- Whether a key part is an integer part. -/
def part_is_num : KeyPart → Bool
  | KeyPart.num _ => true
  | KeyPart.txt _ => false

/-- A key whose parts alternate kinds, starting with kind b. -/
def AltFrom : Bool → List KeyPart → Prop
  | _, [] => True
  | b, p :: rest => part_is_num p = b ∧ AltFrom (!b) rest

/-- A run list whose digit flags alternate, starting with flag b. -/
def RunsAltFrom : Bool → List (Bool × List Char) → Prop
  | _, [] => True
  | b, r :: rest => r.1 = b ∧ RunsAltFrom (!b) rest

/-! ### Theorems -/

/-! Theorems for the state store (claims about mark/is/get_pending). -/

/-- C2: after mark_completed(unit, stage, outs) the query
is_completed(unit, stage) evaluates, on any filesystem, to whether every
recorded output path exists; in particular it is true while all outputs
exist and false as soon as one is missing, with no further state-store call
and no error (the query is a total function), and the unit is then listed
as pending again. -/
theorem mark_completed_then_is_completed :
    ∀ (states : StateMap) (unit stage : String) (outs : List String)
      (now : String) (fs : String → Bool),
      is_completed (mark_completed states unit stage outs now) fs unit stage
        = outs.all (fun f => fs f)
      ∧ get_pending_tasks (mark_completed states unit stage outs now) fs [unit] stage
        = (if outs.all (fun f => fs f) then [] else [unit]) := by
  intro states unit stage outs now fs
  constructor
  · simp [is_completed, mark_completed]
  · simp only [get_pending_tasks, List.filter]
    by_cases h : outs.all (fun f => fs f)
    · simp [is_completed, mark_completed, h]
    · simp [is_completed, mark_completed, h]

/-- C10: a task marked completed with an empty output list (as happens when
a resumable run records a completed result carrying no output path) is
reported completed by is_completed on every filesystem state, so the unit
is never returned as pending on resume. -/
theorem empty_outputs_always_completed
    (states : StateMap) (operation now : String) (r : ProcessingResult)
    (hc : r.status = ProcessingStatus.completed)
    (ho : r.output_path = none) :
    ∀ fs : String → Bool,
      is_completed (record_result states operation r now) fs r.input_path operation = true
      ∧ get_pending_tasks (record_result states operation r now) fs [r.input_path] operation
        = [] := by
  intro fs
  constructor
  · simp [record_result, hc, ho, is_completed, mark_completed]
  · simp [get_pending_tasks, List.filter, record_result, hc, ho, is_completed, mark_completed]

/-- Witness for C10: a concrete completed result with no output path is
treated as completed even on a filesystem where nothing exists. -/
theorem empty_outputs_always_completed_witness :
    ProcessingResult.status ⟨ProcessingStatus.completed, "drama-0001", none, none, 0⟩
        = ProcessingStatus.completed
    ∧ is_completed
        (record_result (fun _ => none) "merge"
          ⟨ProcessingStatus.completed, "drama-0001", none, none, 0⟩ "t0")
        (fun _ => false) "drama-0001" "merge" = true :=
  ⟨rfl,
   (empty_outputs_always_completed (fun _ => none) "merge" "t0"
      ⟨ProcessingStatus.completed, "drama-0001", none, none, 0⟩ rfl rfl
      (fun _ => false)).1⟩

example : extract_number "video-001.mp4" = [1] := by decide

example : extract_number "video-001-part-002.mp4" = [1, 2] := by decide

example : extract_number "intro.mp4" = [0] := by decide

example : natural_sort_key "v-2.mp4" = [KeyPart.txt "v-", KeyPart.num 2] := by decide

example : pyCompare (natural_sort_key "v-2.mp4") (natural_sort_key "v-10.mp4")
    = Except.ok Ordering.lt := by decide

example : pyCompare (natural_sort_key "1.mp4") (natural_sort_key "a.mp4")
    = Except.error () := by decide

example : validate_sequence ["v-1.mp4", "v-2.mp4", "v-3.mp4"] = (true, none) := by decide

example : validate_sequence ["v-1.mp4", "v-01.mp4", "v-2.mp4"]
    = (false, some (SeqError.duplicates [1])) := by decide

example : validate_sequence ["v-1.mp4", "v-3.mp4"]
    = (false, some (SeqError.missing [2])) := by decide

example : validate_sequence [] = (false, some SeqError.emptyList) := by decide

example :
    (merge_subtitles
        [(SubtitleFormat.srt, [⟨5, 1, 3, "a", none⟩]),
         (SubtitleFormat.srt, [⟨7, 2, 4, "b", none⟩])]
        [10, 20]).1
      = Except.ok [⟨1, 1, 3, "a", none⟩, ⟨2, 12, 14, "b", none⟩] := by
  with_unfolding_all rfl

example :
    merge_subtitles
        [(SubtitleFormat.srt, [⟨5, 1, 3, "a", none⟩]),
         (SubtitleFormat.ass, [⟨7, 2, 4, "b", none⟩])]
        [10, 20]
      = (Except.error (MergeError.formatMismatch SubtitleFormat.srt SubtitleFormat.ass), []) := by
  decide

example :
    spec_merged_entries
        [(SubtitleFormat.srt, [⟨5, 1, 3, "a", none⟩]),
         (SubtitleFormat.srt, [⟨7, 2, 4, "b", none⟩])]
        [10, 20]
      = [⟨1, 1, 3, "a", none⟩, ⟨2, 12, 14, "b", none⟩] := by
  with_unfolding_all rfl

lemma shift_time_zero (e : SubtitleEntry) : e.shift_time 0 = e := by
  cases e
  simp [SubtitleEntry.shift_time]

lemma renumber_append (a b : List SubtitleEntry) (s : Nat) :
    renumber (a ++ b) s = renumber a s ++ renumber b (s + a.length) := by
  induction a generalizing s with
  | nil => simp [renumber]
  | cons e a ih =>
    simp only [List.cons_append, renumber, List.length_cons, List.append_eq]
    rw [ih]
    have h : s + 1 + a.length = s + (a.length + 1) := by omega
    rw [h]

lemma renumber_map_index (es : List SubtitleEntry) (s : Nat) :
    (renumber es s).map (fun e => e.index) = List.range' s es.length := by
  induction es generalizing s with
  | nil => simp [renumber]
  | cons e es ih => simp [renumber, ih, List.range'_succ]

lemma renumber_congr (a b : List SubtitleEntry) (s : Nat) (h : a = b) :
    renumber a s = renumber b s := by rw [h]

lemma sum_take_zero (durations : List ℚ) : sum_take durations 0 = 0 := by
  simp [sum_take]

/-- The merge loop produces exactly the loop-coordinate shifts, renumbered
from the running global index (for nonnegative offsets the `shift only when
positive` test of the code coincides with always shifting). -/
lemma merge_loop_eq_loop_shifted (segments : List ParsedSegment) :
    ∀ (durations : List ℚ) (off : ℚ) (gidx : Nat),
      0 ≤ off → (∀ d ∈ durations, 0 ≤ d) →
      (merge_loop segments durations off gidx).1
        = renumber (loop_shifted segments durations off) gidx := by
  induction segments with
  | nil =>
    intro durations off gidx hoff hpos
    simp [merge_loop, loop_shifted, renumber]
  | cons seg rest ih =>
    intro durations off gidx hoff hpos
    cases durations with
    | nil =>
      have hrec := ih [] off (gidx + seg.2.length) hoff (by simp)
      simp only [merge_loop, loop_shifted, List.tail_nil]
      rw [renumber_append]
      by_cases h : 0 < off
      · simp only [h, if_pos]
        rw [hrec]
        simp
      · have h0 : off = 0 := le_antisymm (not_lt.mp h) hoff
        subst h0
        simp only [lt_self_iff_false, if_neg, not_false_iff]
        rw [hrec]
        simp [shift_time_zero]
    | cons d ds =>
      have hd : 0 ≤ d := hpos d (List.mem_cons_self d ds)
      have hoff' : 0 ≤ off + d := by positivity
      have hpos' : ∀ x ∈ ds, 0 ≤ x := fun x hx => hpos x (List.mem_cons_of_mem d hx)
      have hrec := ih ds (off + d) (gidx + seg.2.length) hoff' hpos'
      simp only [merge_loop, loop_shifted, List.tail_cons]
      rw [renumber_append]
      by_cases h : 0 < off
      · simp only [h, if_pos]
        rw [hrec]
        simp
      · have h0 : off = 0 := le_antisymm (not_lt.mp h) hoff
        subst h0
        simp only [lt_self_iff_false, if_neg, not_false_iff]
        rw [hrec]
        simp [shift_time_zero]

/-- Loop coordinates agree with specification coordinates: dropping the
first i durations and starting from their sum is the same as shifting file
i by the sum of the durations of its predecessors. -/
lemma loop_shifted_eq_spec_shifted (segments : List ParsedSegment) :
    ∀ (durations : List ℚ) (i : Nat),
      loop_shifted segments (durations.drop i) (sum_take durations i)
        = spec_shifted segments durations i := by
  induction segments with
  | nil => intro durations i; simp [loop_shifted, spec_shifted]
  | cons seg rest ih =>
    intro durations i
    simp only [loop_shifted, spec_shifted]
    congr 1
    have htail : (durations.drop i).tail = durations.drop (i + 1) := by
      rw [← List.drop_drop]
      simp [List.drop_one]
    have hoff :
        (match durations.drop i with
         | [] => sum_take durations i
         | d :: _ => sum_take durations i + d) = sum_take durations (i + 1) := by
      rcases hcase : durations.drop i with _ | ⟨d, rest2⟩
      · have hle : durations.length ≤ i := by
          rw [← List.drop_eq_nil_iff, hcase]
        simp only [sum_take]
        rw [List.take_of_length_le hle, List.take_of_length_le (by omega)]
      · have hi : i < durations.length := by
          by_contra hcon
          rw [List.drop_eq_nil_iff.mpr (by omega)] at hcase
          exact absurd hcase (by simp)
        have hdrop := List.drop_eq_getElem_cons hi
        rw [hcase] at hdrop
        have hd : d = durations[i] := by
          injection hdrop with h1 h2
        simp only [sum_take]
        rw [List.sum_take_succ durations i hi, hd]
    rw [htail, hoff]
    exact ih durations (i + 1)

lemma spec_shifted_length (segments : List ParsedSegment) :
    ∀ (durations : List ℚ) (i : Nat),
      (spec_shifted segments durations i).length
        = ((segments.map (fun s => s.2.length)).sum) := by
  induction segments with
  | nil => intro durations i; simp [spec_shifted]
  | cons seg rest ih =>
    intro durations i
    simp [spec_shifted, ih durations (i + 1)]

/-- C1: merging two or more subtitle files of one shared format with the
corresponding (nonnegative) video durations shifts each file's entries by
the sum of the durations of all preceding segments (the first file by 0,
each segment's duration being added to the cumulative offset afterwards),
concatenates them in order, and assigns fresh strictly increasing global
indices 1, 2, ..., N discarding the original per-file indices. -/
theorem merge_subtitles_cumulative_offsets
    (segments : List ParsedSegment) (durations : List ℚ) (fmt : SubtitleFormat)
    (h2 : 2 ≤ segments.length)
    (hfmt : ∀ s ∈ segments, s.1 = fmt)
    (hpos : ∀ d ∈ durations, 0 ≤ d) :
    (merge_subtitles segments durations).1
        = Except.ok (spec_merged_entries segments durations)
    ∧ (spec_merged_entries segments durations).map (fun e => e.index)
        = List.range' 1 ((segments.map (fun s => s.2.length)).sum) := by
  constructor
  · match segments, h2 with
    | first :: r1 :: rest, _ =>
      have hfind : (r1 :: rest).find? (fun seg => seg.1 ≠ first.1) = none := by
        rw [List.find?_eq_none]
        intro x hx
        have hx1 : x.1 = fmt := hfmt x (List.mem_cons_of_mem first hx)
        have hfirst : first.1 = fmt := hfmt first (List.mem_cons_self first (r1 :: rest))
        simp [hx1, hfirst]
      simp only [merge_subtitles, hfind]
      have hcons : (r1 :: rest) ≠ [] := by simp
      simp only [hcons, if_neg, not_false_iff]
      have hloop := merge_loop_eq_loop_shifted (first :: r1 :: rest) durations 0 1
        le_rfl hpos
      have hcoord := loop_shifted_eq_spec_shifted (first :: r1 :: rest) durations 0
      rw [List.drop_zero, sum_take_zero] at hcoord
      rw [hloop, hcoord]
      rfl
  · unfold spec_merged_entries
    rw [renumber_map_index, spec_shifted_length]

/-- Witness for C1: merging two single-entry files with durations
[10.0, 20.0] shifts the second file's entry by exactly +10.0 seconds and
yields global indices 1 then 2. -/
theorem merge_subtitles_cumulative_offsets_witness :
    (2 ≤ ([(SubtitleFormat.srt, [⟨5, 1, 3, "a", none⟩]),
           (SubtitleFormat.srt, [⟨7, 2, 4, "b", none⟩])] : List ParsedSegment).length)
    ∧ (merge_subtitles
         [(SubtitleFormat.srt, [⟨5, 1, 3, "a", none⟩]),
          (SubtitleFormat.srt, [⟨7, 2, 4, "b", none⟩])] [10, 20]).1
        = Except.ok [⟨1, 1, 3, "a", none⟩, ⟨2, 12, 14, "b", none⟩] := by
  constructor
  · decide
  · have h := (merge_subtitles_cumulative_offsets
      [(SubtitleFormat.srt, [⟨5, 1, 3, "a", none⟩]),
       (SubtitleFormat.srt, [⟨7, 2, 4, "b", none⟩])] [10, 20] SubtitleFormat.srt
      (by decide) (by decide) (by decide)).1
    rw [h]
    with_unfolding_all rfl

/-- C4: a segment list containing two files of differing declared formats
makes merge_subtitles raise a format-mismatch error with no side effect at
all: no directory creation, no shift arithmetic, no output written. -/
theorem merge_subtitles_mismatch_aborts
    (segments : List ParsedSegment) (durations : List ℚ)
    (h : ∃ a ∈ segments, ∃ b ∈ segments, a.1 ≠ b.1) :
    ∃ f g, f ≠ g ∧
      merge_subtitles segments durations
        = (Except.error (MergeError.formatMismatch f g), []) := by
  obtain ⟨a, ha, b, hb, hab⟩ := h
  match segments, ha, hb with
  | first :: rest, ha, hb =>
    have hexists : ∃ x ∈ rest, (fun seg : ParsedSegment => decide (seg.1 ≠ first.1)) x = true := by
      by_contra hcon
      push_neg at hcon
      have hall : ∀ x ∈ rest, x.1 = first.1 := by
        intro x hx
        have := hcon x hx
        simpa using this
      have ha1 : a.1 = first.1 := by
        rcases List.mem_cons.mp ha with h1 | h1
        · rw [h1]
        · exact hall a h1
      have hb1 : b.1 = first.1 := by
        rcases List.mem_cons.mp hb with h1 | h1
        · rw [h1]
        · exact hall b h1
      exact hab (ha1.trans hb1.symm)
    have hsome : ((rest.find? (fun seg => seg.1 ≠ first.1)).isSome) = true := by
      rw [List.find?_isSome]
      exact hexists
    obtain ⟨seg, hseg⟩ := Option.isSome_iff_exists.mp hsome
    have hp := List.find?_some hseg
    have hne : first.1 ≠ seg.1 := by
      intro hcon
      simp [hcon] at hp
    refine ⟨first.1, seg.1, hne, ?_⟩
    simp only [merge_subtitles, hseg]

/-- Witness for C4: one SRT file next to one ASS file is rejected with a
format-mismatch error and an empty effect trace. -/
theorem merge_subtitles_mismatch_aborts_witness :
    (∃ a ∈ ([(SubtitleFormat.srt, []), (SubtitleFormat.ass, [])] : List ParsedSegment),
      ∃ b ∈ ([(SubtitleFormat.srt, []), (SubtitleFormat.ass, [])] : List ParsedSegment),
        a.1 ≠ b.1)
    ∧ ∃ f g, f ≠ g ∧
        merge_subtitles [(SubtitleFormat.srt, []), (SubtitleFormat.ass, [])] [10]
          = (Except.error (MergeError.formatMismatch f g), []) :=
  ⟨by decide,
   merge_subtitles_mismatch_aborts
     [(SubtitleFormat.srt, []), (SubtitleFormat.ass, [])] [10] (by decide)⟩

/-- C3 counterexample: a handler that raises a retryable error twice and
succeeds on the third attempt (within the default retry budget of 3) still
yields a failed StageResult, because the orchestrator finalizes the failure
on the first exception without offering it to the recovery chain. -/
theorem orch_merge_retryable_counterexample :
    retryable PyErr.ioError = true
    ∧ third_try_handler 0 = Except.error PyErr.ioError
    ∧ third_try_handler 1 = Except.error PyErr.ioError
    ∧ third_try_handler 2
        = Except.ok
            { status := ProcessingStatus.completed
              input_path := "drama-0001"
              output_path := some "merged"
              error_message := none
              duration_seconds := 0 }
    ∧ (orch_merge [] third_try_handler "drama-0001").status ≠ ProcessingStatus.completed
    ∧ (orch_merge [] third_try_handler "drama-0001").status = ProcessingStatus.failed := by
  decide

/-- C3 (amended): on a stage failure the orchestrator finalizes a failed
StageResult from the first exception directly, never consulting the Error
Recovery Chain (the result is identical under any configured chain); the
RetryStrategy itself, driven with max_retries = 3, does recover an
operation that fails twice and succeeds on its third attempt, and reports
non-recovery for one that never succeeds within the budget. -/
theorem orch_merge_no_recovery_chain :
    (∀ (chain : List RecoveryStrategy) (handler : Nat → Except PyErr ProcessingResult)
        (dir : String) (e : PyErr),
        handler 0 = Except.error e → orch_merge chain handler dir = failed_result dir e)
    ∧ (∀ (chain chain' : List RecoveryStrategy)
        (handler : Nat → Except PyErr ProcessingResult) (dir : String),
        orch_merge chain handler dir = orch_merge chain' handler dir)
    ∧ retry_recover 3 0 (fun k => decide (2 ≤ k)) 0 = true
    ∧ retry_recover 3 0 (fun _ => false) 0 = false := by
  refine ⟨?_, ?_, by decide, by decide⟩
  · intro chain handler dir e h
    simp [orch_merge, h]
  · intro chain chain' handler dir
    rfl

/-- Witness for C3 (amended): the concrete third-try handler fails on
invocation 0 and the orchestrator returns the failed result built from
that first error. -/
theorem orch_merge_no_recovery_chain_witness :
    third_try_handler 0 = Except.error PyErr.ioError
    ∧ orch_merge [] third_try_handler "drama-0001"
        = failed_result "drama-0001" PyErr.ioError :=
  ⟨by decide,
   orch_merge_no_recovery_chain.1 [] third_try_handler "drama-0001" PyErr.ioError (by decide)⟩

lemma process_batch_go_eq (outcome : String → Except PyErr ProcessingResult) :
    ∀ (dirs : List String) (acc : List ProcessingResult),
      process_batch_go outcome dirs acc = acc ++ dirs.map (unit_merge outcome) := by
  intro dirs
  induction dirs with
  | nil => intro acc; simp [process_batch_go]
  | cons d rest ih =>
    intro acc
    simp [process_batch_go, ih]

/-- C7: one unit's failure never stops or skips the rest of the batch: the
sequential batch returns exactly one result per input unit, the i-th result
is the i-th unit's result, and a unit whose body raises any exception gets
a failed StageResult instead of aborting. -/
theorem process_batch_isolation :
    ∀ (outcome : String → Except PyErr ProcessingResult) (drama_dirs : List String),
      (process_batch outcome drama_dirs).length = drama_dirs.length
      ∧ (∀ i : Nat, (process_batch outcome drama_dirs)[i]?
          = (drama_dirs[i]?).map (unit_merge outcome))
      ∧ (∀ d : String, (unit_merge outcome d).status
          = match outcome d with
            | Except.ok r => r.status
            | Except.error _ => ProcessingStatus.failed)
      ∧ (∀ d : String, (unit_merge outcome d).input_path
          = match outcome d with
            | Except.ok r => r.input_path
            | Except.error _ => d) := by
  intro outcome drama_dirs
  refine ⟨?_, ?_, ?_, ?_⟩
  · rw [process_batch, process_batch_go_eq]
    simp
  · intro i
    rw [process_batch, process_batch_go_eq]
    simp [List.getElem?_map]
  · intro d
    cases h : outcome d <;> simp [unit_merge, h, failed_result]
  · intro d
    cases h : outcome d <;> simp [unit_merge, h, failed_result]

lemma foldl_set_length (f : Nat → ProcessingResult) :
    ∀ (order : List Nat) (acc : List (Option ProcessingResult)),
      (order.foldl (fun res i => res.set i (some (f i))) acc).length = acc.length := by
  intro order
  induction order with
  | nil => intro acc; simp
  | cons j rest ih =>
    intro acc
    simp [List.foldl_cons, ih]

lemma foldl_set_untouched (f : Nat → ProcessingResult) :
    ∀ (order : List Nat) (acc : List (Option ProcessingResult)) (i : Nat),
      i ∉ order →
      (order.foldl (fun res i => res.set i (some (f i))) acc)[i]? = acc[i]? := by
  intro order
  induction order with
  | nil => intro acc i _; rfl
  | cons j rest ih =>
    intro acc i hi
    have hij : i ≠ j := fun h => hi (h ▸ List.mem_cons_self j rest)
    have hrest : i ∉ rest := fun h => hi (List.mem_cons_of_mem j h)
    simp only [List.foldl_cons]
    rw [ih _ i hrest, List.getElem?_set_ne (Ne.symm hij)]

lemma foldl_set_hit (f : Nat → ProcessingResult) :
    ∀ (order : List Nat) (acc : List (Option ProcessingResult)) (i : Nat),
      i < acc.length → i ∈ order →
      (order.foldl (fun res i => res.set i (some (f i))) acc)[i]? = some (some (f i)) := by
  intro order
  induction order with
  | nil => intro acc i _ h; exact absurd h (List.not_mem_nil i)
  | cons j rest ih =>
    intro acc i hlen hmem
    simp only [List.foldl_cons]
    by_cases hr : i ∈ rest
    · exact ih _ i (by simp [hlen]) hr
    · have hij : i = j := by
        rcases List.mem_cons.mp hmem with h | h
        · exact h
        · exact absurd h hr
      subst hij
      rw [foldl_set_untouched f rest _ i hr, List.getElem?_set_self (by simp [hlen])]

/-- C9: for any completion order of the workers (any permutation of the
task indices), the i-th element of the list returned by the concurrent
batch is the result of the i-th input unit. -/
theorem concurrent_results_aligned
    (outcome : Nat → Except PyErr ProcessingResult) (drama_dirs : List String)
    (completion_order : List Nat)
    (hperm : completion_order.Perm (List.range drama_dirs.length)) :
    (concurrent_process_batch outcome drama_dirs completion_order).length
        = drama_dirs.length
    ∧ ∀ i : Nat, i < drama_dirs.length →
        (concurrent_process_batch outcome drama_dirs completion_order)[i]?
          = some (some (task_slot outcome drama_dirs i)) := by
  constructor
  · rw [concurrent_process_batch, foldl_set_length]
    simp
  · intro i hi
    have hmem : i ∈ completion_order := hperm.mem_iff.mpr (List.mem_range.mpr hi)
    exact foldl_set_hit (task_slot outcome drama_dirs) completion_order _ i (by simp [hi]) hmem

/-- Witness for C9: two units completing out of order (order [1, 0]) still
place unit 0's result in slot 0. -/
theorem concurrent_results_aligned_witness :
    ([1, 0] : List Nat).Perm (List.range (["drama-0001", "drama-0002"] : List String).length)
    ∧ (concurrent_process_batch
        (fun i => if i = 0
          then Except.ok
            { status := ProcessingStatus.completed
              input_path := "drama-0001"
              output_path := some "m1"
              error_message := none
              duration_seconds := 0 }
          else Except.error PyErr.ffmpegError)
        ["drama-0001", "drama-0002"] [1, 0])[0]?
      = some (some (task_slot
          (fun i => if i = 0
            then Except.ok
              { status := ProcessingStatus.completed
                input_path := "drama-0001"
                output_path := some "m1"
                error_message := none
                duration_seconds := 0 }
            else Except.error PyErr.ffmpegError)
          ["drama-0001", "drama-0002"] 0)) :=
  ⟨by decide,
   (concurrent_results_aligned
      (fun i => if i = 0
        then Except.ok
          { status := ProcessingStatus.completed
            input_path := "drama-0001"
            output_path := some "m1"
            error_message := none
            duration_seconds := 0 }
        else Except.error PyErr.ffmpegError)
      ["drama-0001", "drama-0002"] [1, 0] (by decide)).2 0 (by decide)⟩

/-- C6 counterexample: a state file whose well-formed JSON content is a
top-level array (or whose record value is not an object) makes load_state
raise an uncaught exception instead of starting empty. -/
theorem load_state_corrupt_counterexample :
    load_state (Except.ok (Json.arr [])) = Except.error UncaughtExc.attributeError
    ∧ load_state (Except.ok (Json.obj [("drama-0001:merge", Json.num 5)]))
        = Except.error UncaughtExc.typeError :=
  ⟨rfl, rfl⟩

lemma load_fields_ok :
    ∀ (fields : List (String × Json)) (acc : List (String × LoadedState)),
      (∀ kv ∈ fields, ∃ d, kv.2 = Json.obj d) →
      ∃ m, load_fields fields acc = Except.ok m := by
  intro fields
  induction fields with
  | nil => intro acc _; exact ⟨acc, rfl⟩
  | cons kv rest ih =>
    intro acc hobj
    obtain ⟨key, v⟩ := kv
    obtain ⟨d, hd⟩ := hobj (key, v) (List.mem_cons_self _ _)
    simp only at hd
    subst hd
    simp only [load_fields]
    cases hrec : read_record d with
    | some st => exact ih _ (fun kv hkv => hobj kv (List.mem_cons_of_mem _ hkv))
    | none => exact ⟨[], rfl⟩

/-- C6 (amended): load_state treats a JSON parse failure, a missing record
key or an invalid status value as no prior state (the store starts empty
and no error escapes), and more generally never raises when the file's top
level is an object whose values are objects; but a top-level non-object
raises an uncaught AttributeError and a non-object record value raises an
uncaught TypeError. -/
theorem load_state_corrupt_handling :
    load_state (Except.error ()) = Except.ok []
    ∧ (∀ j : Json, (∀ fields, j ≠ Json.obj fields) →
        load_state (Except.ok j) = Except.error UncaughtExc.attributeError)
    ∧ (∀ fields : List (String × Json),
        (∀ kv ∈ fields, ∃ d, kv.2 = Json.obj d) →
        ∃ m, load_state (Except.ok (Json.obj fields)) = Except.ok m) := by
  refine ⟨rfl, ?_, ?_⟩
  · intro j hne
    cases j with
    | obj fields => exact absurd rfl (hne fields)
    | null => rfl
    | bool b => rfl
    | num q => rfl
    | str s => rfl
    | arr elems => rfl
  · intro fields hobj
    exact load_fields_ok fields [] hobj

/-- Witness for C6 (amended): a state file holding one well-formed record
loads without raising, and a top-level number raises the AttributeError. -/
theorem load_state_corrupt_handling_witness :
    (∀ kv ∈ [("drama-0001:merge",
        Json.obj [("drama_dir", Json.str "drama-0001"),
                  ("operation", Json.str "merge"),
                  ("status", Json.str "completed"),
                  ("timestamp", Json.str "t0"),
                  ("output_files", Json.arr [Json.str "merged"])])],
      ∃ d, kv.2 = Json.obj d)
    ∧ ∃ m, load_state (Except.ok (Json.obj [("drama-0001:merge",
        Json.obj [("drama_dir", Json.str "drama-0001"),
                  ("operation", Json.str "merge"),
                  ("status", Json.str "completed"),
                  ("timestamp", Json.str "t0"),
                  ("output_files", Json.arr [Json.str "merged"])])]))
        = Except.ok m :=
  ⟨fun kv hkv => by
      rcases List.mem_singleton.mp hkv with h
      subst h
      exact ⟨_, rfl⟩,
   load_state_corrupt_handling.2.2 _
     (fun kv hkv => by
        rcases List.mem_singleton.mp hkv with h
        subst h
        exact ⟨_, rfl⟩)⟩

/-! ### validate_sequence proofs -/

lemma collect_go_mem :
    ∀ (rest seen dups : List Nat) (n : Nat),
      n ∈ collect_dups_go rest seen dups ↔
        (n ∈ dups ∨ (n ∈ seen ∧ n ∈ rest) ∨ 2 ≤ rest.count n) := by
  intro rest
  induction rest with
  | nil => intro seen dups n; simp [collect_dups_go]
  | cons m rest ih =>
    intro seen dups n
    have hcount : n ∈ rest ↔ 0 < rest.count n := by
      constructor
      · exact fun h => List.count_pos_iff.mpr h
      · exact fun h => List.count_pos_iff.mp h
    simp only [collect_dups_go]
    by_cases hms : m ∈ seen
    · by_cases hmd : m ∈ dups
      · rw [if_pos hms, if_pos hmd, ih]
        by_cases hnm : n = m
        · subst hnm
          simp [hmd]
        · simp [List.mem_cons, List.count_cons, hnm]
      · rw [if_pos hms, if_neg hmd, ih]
        by_cases hnm : n = m
        · subst hnm
          simp [hms]
        · simp [List.mem_cons, List.mem_append, List.count_cons, hnm]
    · rw [if_neg hms, ih]
      by_cases hnm : n = m
      · subst hnm
        constructor
        · rintro (h | ⟨_, hrest⟩ | h)
          · exact Or.inl h
          · have h1 : 0 < rest.count n := hcount.mp hrest
            right; right
            simp only [List.count_cons, beq_self_eq_true, if_true]
            omega
          · right; right
            simp only [List.count_cons, beq_self_eq_true, if_true]
            omega
        · rintro (h | ⟨hseen2, _⟩ | h)
          · exact Or.inl h
          · exact absurd hseen2 hms
          · simp only [List.count_cons, beq_self_eq_true, if_true] at h
            right; left
            exact ⟨by simp, hcount.mpr (by omega)⟩
      · simp [List.mem_append, List.mem_cons, List.count_cons, hnm]

lemma collect_duplicates_mem (numbers : List Nat) (n : Nat) :
    n ∈ collect_duplicates numbers ↔ 2 ≤ numbers.count n := by
  rw [collect_duplicates, collect_go_mem]
  simp

lemma collect_duplicates_eq_nil (numbers : List Nat) :
    collect_duplicates numbers = [] ↔ numbers.Nodup := by
  rw [List.eq_nil_iff_forall_not_mem, List.nodup_iff_count_le_one]
  constructor
  · intro h a
    have ha := h a
    rw [collect_duplicates_mem] at ha
    omega
  · intro h a
    rw [collect_duplicates_mem]
    have ha := h a
    omega

lemma sorted_numbers_mem (numbers : List Nat) (n : Nat) :
    n ∈ sorted_numbers numbers ↔ n ∈ numbers :=
  (List.perm_insertionSort (· ≤ ·) numbers).mem_iff

lemma missing_numbers_mem (numbers : List Nat) (n : Nat) :
    n ∈ missing_numbers numbers ↔ (n ∈ expected_run numbers ∧ ¬ n ∈ numbers) := by
  rw [missing_numbers, List.mem_filter]
  simp [sorted_numbers_mem]

/-- When the numbers are distinct and the sorted run is not the expected
contiguous run, at least one expected value is missing (the fall-through
`(true, none)` after a failed contiguity test is unreachable). -/
lemma missing_numbers_ne_nil (numbers : List Nat)
    (hne : sorted_numbers numbers ≠ expected_run numbers) :
    missing_numbers numbers ≠ [] := by
  intro hmis
  apply hne
  have hsub : expected_run numbers ⊆ sorted_numbers numbers := by
    intro x hx
    have hall := List.filter_eq_nil_iff.mp hmis x hx
    simpa using hall
  have hnodup_exp : (expected_run numbers).Nodup := by
    rw [expected_run]
    exact List.nodup_range' _ _
  have hlen : (sorted_numbers numbers).length = (expected_run numbers).length := by
    simp [expected_run]
  have hsubperm : (expected_run numbers).Subperm (sorted_numbers numbers) :=
    List.subperm_of_subset hnodup_exp hsub
  have hperm : (expected_run numbers).Perm (sorted_numbers numbers) :=
    hsubperm.perm_of_length_le (le_of_eq hlen)
  have hsorted1 : (sorted_numbers numbers).Sorted (· ≤ ·) :=
    List.sorted_insertionSort (· ≤ ·) numbers
  have hsorted2 : (expected_run numbers).Sorted (· ≤ ·) := by
    rw [expected_run]
    exact (List.pairwise_lt_range' _ _).imp le_of_lt
  exact List.eq_of_perm_of_sorted hperm.symm hsorted1 hsorted2

/-- C5: sequence validation over primary numbers (first digit run of the
extension-stripped name, 0 if none): the empty list fails with the
empty-class message, distinct from the non-contiguity message; a repeated
number fails reporting exactly the duplicated numbers; distinct numbers
that do not form a contiguous run from their minimum fail reporting exactly
the missing numbers; otherwise validation succeeds with no message.
Examples: [1,2,3] valid, [1,1,2] duplicate 1, [1,3] missing 2. -/
theorem validate_sequence_spec :
    validate_sequence [] = (false, some SeqError.emptyList)
    ∧ (∀ ns : List Nat, SeqError.emptyList ≠ SeqError.duplicates ns
        ∧ SeqError.emptyList ≠ SeqError.missing ns)
    ∧ (∀ files : List String, files ≠ [] →
        (∃ n, 2 ≤ (primary_numbers files).count n) →
        ∃ ds, validate_sequence files = (false, some (SeqError.duplicates ds))
          ∧ ∀ n, n ∈ ds ↔ 2 ≤ (primary_numbers files).count n)
    ∧ (∀ files : List String, files ≠ [] →
        (primary_numbers files).Nodup →
        (sorted_numbers (primary_numbers files) ≠ expected_run (primary_numbers files) →
          ∃ ms, validate_sequence files = (false, some (SeqError.missing ms))
            ∧ ms ≠ []
            ∧ ∀ n, n ∈ ms ↔
                (n ∈ expected_run (primary_numbers files) ∧ ¬ n ∈ primary_numbers files))
        ∧ (sorted_numbers (primary_numbers files) = expected_run (primary_numbers files) →
            validate_sequence files = (true, none)))
    ∧ validate_sequence ["v-1.mp4", "v-2.mp4", "v-3.mp4"] = (true, none)
    ∧ validate_sequence ["v-1.mp4", "v-01.mp4", "v-2.mp4"]
        = (false, some (SeqError.duplicates [1]))
    ∧ validate_sequence ["v-1.mp4", "v-3.mp4"] = (false, some (SeqError.missing [2])) := by
  refine ⟨rfl, ?_, ?_, ?_, by decide, by decide, by decide⟩
  · intro ns
    exact ⟨by simp, by simp⟩
  · intro files hfiles hdup
    have hndup : ¬ (primary_numbers files).Nodup := by
      rw [List.nodup_iff_count_le_one]
      push_neg
      obtain ⟨n, hn⟩ := hdup
      exact ⟨n, by omega⟩
    have hne : collect_duplicates (primary_numbers files) ≠ [] := by
      intro h
      exact hndup ((collect_duplicates_eq_nil _).mp h)
    refine ⟨(collect_duplicates (primary_numbers files)).insertionSort (· ≤ ·), ?_, ?_⟩
    · simp only [validate_sequence, validate_numbers]
      rw [if_neg hfiles, if_pos hne]
    · intro n
      rw [(List.perm_insertionSort (· ≤ ·) _).mem_iff, collect_duplicates_mem]
  · intro files hfiles hnd
    have hdups_nil : collect_duplicates (primary_numbers files) = [] :=
      (collect_duplicates_eq_nil _).mpr hnd
    constructor
    · intro hne
      have hmis := missing_numbers_ne_nil (primary_numbers files) hne
      refine ⟨(missing_numbers (primary_numbers files)).insertionSort (· ≤ ·), ?_, ?_, ?_⟩
      · simp only [validate_sequence, validate_numbers]
        rw [if_neg hfiles, if_neg (by simp [hdups_nil]), if_pos hne, if_pos hmis]
      · intro h
        apply hmis
        have hlen := congrArg List.length h
        rw [List.length_insertionSort] at hlen
        exact List.eq_nil_of_length_eq_zero hlen
      · intro n
        rw [(List.perm_insertionSort (· ≤ ·) _).mem_iff, missing_numbers_mem]
    · intro heq
      simp only [validate_sequence, validate_numbers]
      rw [if_neg hfiles, if_neg (by simp [hdups_nil]), if_neg (by simp [heq])]

/-- Witness for C5: the concrete list with primary numbers [1, 1] hits the
duplicate branch and reports exactly the duplicated number 1. -/
theorem validate_sequence_spec_witness :
    (["v-1.mp4", "v-01.mp4"] ≠ ([] : List String))
    ∧ (∃ n, 2 ≤ (primary_numbers ["v-1.mp4", "v-01.mp4"]).count n)
    ∧ ∃ ds, validate_sequence ["v-1.mp4", "v-01.mp4"]
          = (false, some (SeqError.duplicates ds))
        ∧ ∀ n, n ∈ ds ↔ 2 ≤ (primary_numbers ["v-1.mp4", "v-01.mp4"]).count n :=
  ⟨by decide, ⟨1, by decide⟩,
   validate_sequence_spec.2.2.1 ["v-1.mp4", "v-01.mp4"] (by decide) ⟨1, by decide⟩⟩

lemma keyPartEq_iff (x y : KeyPart) : keyPartEq x y = true ↔ x = y := by
  cases x <;> cases y <;> simp [keyPartEq]

lemma keyPartEq_symm (x y : KeyPart) : keyPartEq x y = keyPartEq y x := by
  cases x <;> cases y <;> simp [keyPartEq, eq_comm]

lemma keyPartLt_ne_eq (x y : KeyPart) : keyPartLt x y ≠ Except.ok Ordering.eq := by
  cases x <;> cases y <;> simp only [keyPartLt] <;> intro h
  · split_ifs at h with h1 <;> simp at h
  · simp at h
  · simp at h
  · split_ifs at h with h1 <;> simp at h

lemma ite_ord_flip {α : Type} [LinearOrder α] {a b : α} (h : a ≠ b) :
    ((if a < b then Ordering.lt else Ordering.gt) = Ordering.lt
      ↔ (if b < a then Ordering.lt else Ordering.gt) = Ordering.gt) := by
  rcases lt_trichotomy a b with hlt | heq | hgt
  · have h2 : ¬ b < a := not_lt.mpr (le_of_lt hlt)
    simp [hlt, h2]
  · exact absurd heq h
  · have h1 : ¬ a < b := not_lt.mpr (le_of_lt hgt)
    simp [h1, hgt]

lemma pyCompare_refl : ∀ k : List KeyPart, pyCompare k k = Except.ok Ordering.eq := by
  intro k
  induction k with
  | nil => rfl
  | cons x xs ih => simp [pyCompare, (keyPartEq_iff x x).mpr rfl, ih]

lemma pyCompare_eq_iff :
    ∀ k1 k2 : List KeyPart, pyCompare k1 k2 = Except.ok Ordering.eq ↔ k1 = k2 := by
  intro k1
  induction k1 with
  | nil => intro k2; cases k2 <;> simp [pyCompare]
  | cons x xs ih =>
    intro k2
    cases k2 with
    | nil => simp [pyCompare]
    | cons y ys =>
      by_cases h : keyPartEq x y = true
      · have hxy := (keyPartEq_iff x y).mp h
        subst hxy
        simp [pyCompare, h, ih]
      · have hxy : x ≠ y := fun he => h ((keyPartEq_iff x y).mpr he)
        simp [pyCompare, h, keyPartLt_ne_eq x y, hxy]

lemma pyCompare_lt_gt :
    ∀ k1 k2 : List KeyPart,
      pyCompare k1 k2 = Except.ok Ordering.lt ↔ pyCompare k2 k1 = Except.ok Ordering.gt := by
  intro k1
  induction k1 with
  | nil => intro k2; cases k2 <;> simp [pyCompare]
  | cons x xs ih =>
    intro k2
    cases k2 with
    | nil => simp [pyCompare]
    | cons y ys =>
      by_cases h : keyPartEq x y = true
      · have hyx : keyPartEq y x = true := by rw [keyPartEq_symm]; exact h
        simp [pyCompare, h, hyx, ih]
      · have hfalse : keyPartEq x y = false := by
          revert h; cases keyPartEq x y <;> simp
        have hyx : keyPartEq y x = false := by rw [keyPartEq_symm]; exact hfalse
        simp only [pyCompare, hfalse, hyx, Bool.false_eq_true, if_false]
        cases x with
        | num a =>
          cases y with
          | num b =>
            have hne : a ≠ b := by simpa [keyPartEq] using hfalse
            simpa [keyPartLt] using ite_ord_flip hne
          | txt t => simp [keyPartLt]
        | txt s =>
          cases y with
          | num b => simp [keyPartLt]
          | txt t =>
            have hne : s ≠ t := by simpa [keyPartEq] using hfalse
            simpa [keyPartLt] using ite_ord_flip hne

lemma keyPartLt_lt_cases (x y : KeyPart) (h : keyPartLt x y = Except.ok Ordering.lt) :
    (∃ a b, x = KeyPart.num a ∧ y = KeyPart.num b ∧ a < b)
    ∨ (∃ s t, x = KeyPart.txt s ∧ y = KeyPart.txt t ∧ s < t) := by
  cases x with
  | num a =>
    cases y with
    | num b =>
      left
      refine ⟨a, b, rfl, rfl, ?_⟩
      by_contra hab
      simp [keyPartLt, hab] at h
    | txt t => simp [keyPartLt] at h
  | txt s =>
    cases y with
    | num b => simp [keyPartLt] at h
    | txt t =>
      right
      refine ⟨s, t, rfl, rfl, ?_⟩
      by_contra hst
      simp [keyPartLt, hst] at h

lemma pyCompare_trans :
    ∀ k1 k2 k3 : List KeyPart,
      pyCompare k1 k2 = Except.ok Ordering.lt →
      pyCompare k2 k3 = Except.ok Ordering.lt →
      pyCompare k1 k3 = Except.ok Ordering.lt := by
  intro k1
  induction k1 with
  | nil =>
    intro k2 k3 h12 h23
    cases k2 with
    | nil => simp [pyCompare] at h12
    | cons y ys =>
      cases k3 with
      | nil => simp [pyCompare] at h23
      | cons z zs => simp [pyCompare]
  | cons x xs ih =>
    intro k2 k3 h12 h23
    cases k2 with
    | nil => simp [pyCompare] at h12
    | cons y ys =>
      cases k3 with
      | nil => simp [pyCompare] at h23
      | cons z zs =>
        by_cases hxy : keyPartEq x y = true
        · have hx : x = y := (keyPartEq_iff x y).mp hxy
          subst hx
          simp only [pyCompare, hxy, if_true] at h12
          by_cases hxz : keyPartEq x z = true
          · have hz : x = z := (keyPartEq_iff _ _).mp hxz
            subst hz
            simp only [pyCompare, hxz, if_true] at h23 ⊢
            exact ih ys zs h12 h23
          · simp only [pyCompare, hxz, Bool.false_eq_true, if_false] at h23 ⊢
            exact h23
        · simp only [pyCompare] at h12
          rw [if_neg hxy] at h12
          by_cases hyz : keyPartEq y z = true
          · have hz : y = z := (keyPartEq_iff _ _).mp hyz
            subst hz
            simp only [pyCompare]
            rw [if_neg hxy]
            exact h12
          · simp only [pyCompare] at h23
            rw [if_neg hyz] at h23
            rcases keyPartLt_lt_cases x y h12 with ⟨a, b, hxe, hye, hab⟩ | ⟨s, t, hxe, hye, hst⟩
            · rcases keyPartLt_lt_cases y z h23 with ⟨b2, c, hye2, hze, hbc⟩ | ⟨t2, u, hye2, hze, htu⟩
              · subst hxe; subst hze
                rw [hye] at hye2
                injection hye2 with hb
                subst hb
                have hac : a < c := lt_trans hab hbc
                have hxz : ¬ keyPartEq (KeyPart.num a) (KeyPart.num c) = true := by
                  simp [keyPartEq]
                  omega
                simp only [pyCompare]
                rw [if_neg hxz]
                simp [keyPartLt, hac]
              · rw [hye] at hye2
                exact absurd hye2 (by simp)
            · rcases keyPartLt_lt_cases y z h23 with ⟨b2, c, hye2, hze, hbc⟩ | ⟨t2, u, hye2, hze, htu⟩
              · rw [hye] at hye2
                exact absurd hye2 (by simp)
              · subst hxe; subst hze
                rw [hye] at hye2
                injection hye2 with ht
                subst ht
                have hsu : s < u := lt_trans hst htu
                have hxz : ¬ keyPartEq (KeyPart.txt s) (KeyPart.txt u) = true := by
                  simp [keyPartEq]
                  exact ne_of_lt hsu
                simp only [pyCompare]
                rw [if_neg hxz]
                simp [keyPartLt, hsu]

lemma dropWhile_head_false (p : Char → Bool) :
    ∀ (l : List Char) (c : Char) (rest : List Char),
      l.dropWhile p = c :: rest → p c = false := by
  intro l
  induction l with
  | nil => intro c rest h; simp [List.dropWhile] at h
  | cons a l ih =>
    intro c rest h
    rw [List.dropWhile_cons] at h
    by_cases hp : p a = true
    · rw [if_pos hp] at h
      exact ih c rest h
    · rw [if_neg hp] at h
      injection h with h1 h2
      subst h1
      exact Bool.eq_false_iff.mpr hp

lemma split_runs_go_alt :
    ∀ (fuel : Nat) (cs : List Char) (b : Bool),
      cs.length ≤ fuel →
      (∀ c, cs.head? = some c → c.isDigit = b) →
      RunsAltFrom b (split_runs_go fuel cs) := by
  intro fuel
  induction fuel with
  | zero =>
    intro cs b hlen _
    cases cs with
    | nil => exact trivial
    | cons c cs2 => simp at hlen
  | succ fuel ih =>
    intro cs b hlen hhead
    cases cs with
    | nil => exact trivial
    | cons c cs2 =>
      have hb : c.isDigit = b := hhead c rfl
      refine ⟨hb, ?_⟩
      apply ih
      · calc (cs2.dropWhile (fun x => x.isDigit = c.isDigit)).length
            ≤ cs2.length := (List.dropWhile_sublist _).length_le
          _ ≤ fuel := by simpa using hlen
      · intro c2 hc2
        rcases hcase : cs2.dropWhile (fun x => x.isDigit = c.isDigit) with _ | ⟨a, t⟩
        · rw [hcase] at hc2
          simp at hc2
        · rw [hcase] at hc2
          have ha : a = c2 := by injection hc2
          have hfalse := dropWhile_head_false _ cs2 a t hcase
          have hne : ¬ (a.isDigit = c.isDigit) := by simpa using hfalse
          rw [← ha, hb] at *
          revert hne
          cases a.isDigit <;> cases b <;> simp

lemma runs_map_alt :
    ∀ (runs : List (Bool × List Char)) (b : Bool),
      RunsAltFrom b runs → AltFrom b (runs.map run_to_part) := by
  intro runs
  induction runs with
  | nil => intro b _; exact trivial
  | cons r rest ih =>
    intro b hr
    obtain ⟨h1, h2⟩ := hr
    refine ⟨?_, ih (!b) h2⟩
    rw [← h1]
    cases hcase : r.1 <;> simp [run_to_part, part_is_num, hcase]

lemma splitRuns_cons_ne_nil (c : Char) (cs : List Char) : splitRuns (c :: cs) ≠ [] := by
  simp [splitRuns, split_runs_go]

lemma splitRuns_alt (c : Char) (cs : List Char) :
    RunsAltFrom c.isDigit (splitRuns (c :: cs)) := by
  unfold splitRuns
  apply split_runs_go_alt
  · exact le_rfl
  · intro c2 hc2
    have h1 : c = c2 := by injection hc2
    rw [← h1]

lemma natural_sort_key_ne_nil (s : String) : natural_sort_key s ≠ [] := by
  simp only [natural_sort_key]
  split
  · simp
  · rename_i h
    exact h

lemma natural_sort_key_alt (s : String) : ∃ b, AltFrom b (natural_sort_key s) := by
  simp only [natural_sort_key]
  split
  · exact ⟨false, ⟨rfl, trivial⟩⟩
  · rename_i hne
    rcases hcs : (pyStem s).toList with _ | ⟨c, cs2⟩
    · refine ⟨false, ?_⟩
      simp only [splitRuns, split_runs_go, List.length_nil, List.map_nil]
      exact trivial
    · exact ⟨c.isDigit, runs_map_alt _ _ (splitRuns_alt c cs2)⟩

lemma alt_head (k : List KeyPart) (b : Bool) (hne : k ≠ []) (h : AltFrom b k) :
    part_is_num (k.headD (KeyPart.txt "")) = b := by
  cases k with
  | nil => exact absurd rfl hne
  | cons p rest => exact h.1

lemma pyCompare_defined_of_alt :
    ∀ (k1 k2 : List KeyPart) (b : Bool),
      AltFrom b k1 → AltFrom b k2 → ∃ o, pyCompare k1 k2 = Except.ok o := by
  intro k1
  induction k1 with
  | nil =>
    intro k2 b _ _
    cases k2 with
    | nil => exact ⟨Ordering.eq, rfl⟩
    | cons y ys => exact ⟨Ordering.lt, rfl⟩
  | cons x xs ih =>
    intro k2 b h1 h2
    cases k2 with
    | nil => exact ⟨Ordering.gt, rfl⟩
    | cons y ys =>
      obtain ⟨hx, hxs⟩ := h1
      obtain ⟨hy, hys⟩ := h2
      by_cases hxy : keyPartEq x y = true
      · obtain ⟨o, ho⟩ := ih ys (!b) hxs hys
        exact ⟨o, by simp [pyCompare, hxy, ho]⟩
      · have hkind : part_is_num x = part_is_num y := by rw [hx, hy]
        cases x with
        | num a =>
          cases y with
          | num b2 =>
            exact ⟨if a < b2 then Ordering.lt else Ordering.gt,
                   by simp [pyCompare, hxy, keyPartLt]⟩
          | txt t => simp [part_is_num] at hkind
        | txt s =>
          cases y with
          | num b2 => simp [part_is_num] at hkind
          | txt t =>
            exact ⟨if s < t then Ordering.lt else Ordering.gt,
                   by simp [pyCompare, hxy, keyPartLt]⟩

/-- C8 counterexample: comparing a digit-leading name against a
letter-leading name is a Python TypeError (int against str), so the natural
sort is not defined on every file-name list. -/
theorem natural_sort_mixed_counterexample :
    natural_sort_key "1.mp4" = [KeyPart.num 1]
    ∧ natural_sort_key "a.mp4" = [KeyPart.txt "a"]
    ∧ pyCompare (natural_sort_key "1.mp4") (natural_sort_key "a.mp4") = Except.error ()
    ∧ ∀ o : Ordering,
        pyCompare (natural_sort_key "1.mp4") (natural_sort_key "a.mp4") ≠ Except.ok o := by
  refine ⟨by decide, by decide, by decide, ?_⟩
  intro o
  intro h
  rw [show pyCompare (natural_sort_key "1.mp4") (natural_sort_key "a.mp4")
      = Except.error () by decide] at h
  exact absurd h (by simp)

/-- C8 (amended): the natural-sort key splits the extension-stripped name
into alternating non-digit and digit runs, digit runs compared numerically
and non-digit runs case-insensitively as text; the comparison is reflexive,
agrees with key equality, flips between lt and gt, and is transitive, and
it is total on names whose keys start with the same kind of run (so on any
family of names all starting with a non-digit, or all with a digit); in
particular "v-2.mp4" sorts before "v-10.mp4". Comparing a digit-leading key
against a text-leading key raises a TypeError instead. -/
theorem natural_sort_key_order :
    (∀ k : List KeyPart, pyCompare k k = Except.ok Ordering.eq)
    ∧ (∀ k1 k2 : List KeyPart,
        pyCompare k1 k2 = Except.ok Ordering.eq ↔ k1 = k2)
    ∧ (∀ k1 k2 : List KeyPart,
        pyCompare k1 k2 = Except.ok Ordering.lt ↔ pyCompare k2 k1 = Except.ok Ordering.gt)
    ∧ (∀ k1 k2 k3 : List KeyPart,
        pyCompare k1 k2 = Except.ok Ordering.lt →
        pyCompare k2 k3 = Except.ok Ordering.lt →
        pyCompare k1 k3 = Except.ok Ordering.lt)
    ∧ (∀ a b : String,
        part_is_num ((natural_sort_key a).headD (KeyPart.txt ""))
          = part_is_num ((natural_sort_key b).headD (KeyPart.txt "")) →
        ∃ o, pyCompare (natural_sort_key a) (natural_sort_key b) = Except.ok o)
    ∧ pyCompare (natural_sort_key "v-2.mp4") (natural_sort_key "v-10.mp4")
        = Except.ok Ordering.lt := by
  refine ⟨pyCompare_refl, pyCompare_eq_iff, pyCompare_lt_gt, pyCompare_trans, ?_, by decide⟩
  intro a b hk
  obtain ⟨ba, hba⟩ := natural_sort_key_alt a
  obtain ⟨bb, hbb⟩ := natural_sort_key_alt b
  have ha := alt_head _ ba (natural_sort_key_ne_nil a) hba
  have hb2 := alt_head _ bb (natural_sort_key_ne_nil b) hbb
  have hbab : ba = bb := by rw [← ha, ← hb2, hk]
  subst hbab
  exact pyCompare_defined_of_alt _ _ ba hba hbb

/-- Witness for C8 (amended): two letter-leading names have same-kind key
heads, so their comparison succeeds; transitivity is applied at three
concrete keys. -/
theorem natural_sort_key_order_witness :
    (part_is_num ((natural_sort_key "b.mp4").headD (KeyPart.txt ""))
      = part_is_num ((natural_sort_key "a10.mp4").headD (KeyPart.txt "")))
    ∧ (∃ o, pyCompare (natural_sort_key "b.mp4") (natural_sort_key "a10.mp4")
        = Except.ok o) :=
  ⟨by decide,
   natural_sort_key_order.2.2.2.2.1 "b.mp4" "a10.mp4" (by decide)⟩

end DramaProcessor

